import Mathlib

/-!
Verification development for the SAM2-Realtime ComfyUI nodes (src/nodes.py).

The file shallowly embeds the two node classes:
  * DownloadAndLoadSAM2RealtimeModel.loadmodel (lines 55-135), modelled as an
    effect-trace function so that the order of the cpu/precision check and the
    side effects is visible;
  * Sam2RealtimeSegmentation (lines 137-280): the per-frame tracking state
    machine (predictor / if_init fields, load_first_frame / add_new_prompt /
    track calls), the per-frame binary-mask computation, the mask colorizing
    routine _process_mask, the point-overlay loop, and the final compositing.

Tensors are embedded as their index maps over exact rationals; uint8 values
are naturals reduced mod 256 where a conversion happens in the code.  The
external collaborators (the segmentation model, ast.literal_eval, cv2.resize)
are parameters of the embedding, as the spec treats them as opaque
capability objects.
-/

namespace SAM2Realtime

/-- Python int() conversion of a (rational) number: truncation toward zero. -/
def pyInt (q : ℚ) : ℤ := if 0 ≤ q then ⌊q⌋ else -⌊-q⌋

/-- A 2-D tensor, embedded as its index map (row, column). -/
abbrev Mat (α : Type) := ℕ → ℕ → α

/-- A 4-D tensor of shape (nObj, channels, h, w), embedded as its index map;
used both for out_mask_logits and for the mask argument of _process_mask. -/
structure Tensor4 where
  nObj : ℕ
  h : ℕ
  w : ℕ
  val : ℕ → ℕ → ℕ → ℕ → ℚ

/-- Line 251: (out_mask_logits[0, 0] > threshold).byte(), the element-wise
strict comparison of the first object's logits against the threshold,
yielding a uint8 0/1 matrix. -/
def binarizeLogits (L : Tensor4) (threshold : ℚ) : Mat ℕ :=
  fun y x => if threshold < L.val 0 0 y x then 1 else 0

/-- Lines 252-256: torch.nn.functional.interpolate with mode nearest from
input size (hin, win) to output size (Hout, Wout): output pixel (y, x) reads
input pixel (floor (y * hin / Hout), floor (x * win / Wout)). -/
def interpNearest (hin win Hout Wout : ℕ) (m : Mat ℕ) : Mat ℕ :=
  fun y x => m (y * hin / Hout) (x * win / Wout)

/-- Lines 250-258: the per-frame binary mask.  If the model returned at least
one object (out_mask_logits.shape[0] > 0) the first object's logits are
thresholded and nearest-interpolated to the frame's height H and width W;
otherwise torch.ones((H, W), dtype=torch.uint8). -/
def frameMask (L : Tensor4) (threshold : ℚ) (H W : ℕ) : Mat ℕ :=
  if 0 < L.nObj then interpNearest L.h L.w H W (binarizeLogits L threshold)
  else fun _ _ => 1

/-- C3: when the model returns at least one object mask, the per-frame mask
is the first object's logits out_mask_logits[0, 0] compared element-wise
against the threshold and nearest-neighbor interpolated to the frame's
height and width, and every entry of the resulting uint8 tensor is 0 or 1. -/
theorem frameMask_threshold_interp (L : Tensor4) (threshold : ℚ) (H W : ℕ)
    (h : 0 < L.nObj) :
    (∀ y x, frameMask L threshold H W y x =
      if threshold < L.val 0 0 (y * L.h / H) (x * L.w / W) then 1 else 0)
    ∧ (∀ y x, frameMask L threshold H W y x = 0
        ∨ frameMask L threshold H W y x = 1) := by
  constructor
  · intro y x
    unfold frameMask
    rw [if_pos h]
    rfl
  · intro y x
    unfold frameMask
    rw [if_pos h]
    unfold interpNearest binarizeLogits
    split
    · exact Or.inr rfl
    · exact Or.inl rfl

/-- Witness for frameMask_threshold_interp at a concrete one-object logit
tensor. -/
theorem frameMask_threshold_interp_witness :
    0 < (Tensor4.mk 1 2 2 (fun _ _ y x => if y = x then 1 else -1)).nObj
    ∧ ((∀ y x, frameMask (Tensor4.mk 1 2 2 (fun _ _ y x => if y = x then 1 else -1)) (1/2) 2 2 y x =
        if (1/2 : ℚ) < (Tensor4.mk 1 2 2 (fun _ _ y x => if y = x then 1 else -1)).val 0 0 (y * 2 / 2) (x * 2 / 2) then 1 else 0)
      ∧ (∀ y x, frameMask (Tensor4.mk 1 2 2 (fun _ _ y x => if y = x then 1 else -1)) (1/2) 2 2 y x = 0
        ∨ frameMask (Tensor4.mk 1 2 2 (fun _ _ y x => if y = x then 1 else -1)) (1/2) 2 2 y x = 1)) :=
  ⟨by decide,
   frameMask_threshold_interp (Tensor4.mk 1 2 2 (fun _ _ y x => if y = x then 1 else -1)) (1/2) 2 2 (by decide)⟩

/-- C7: when the model returns zero object masks, the per-frame mask is the
all-ones uint8 matrix of the frame's height and width, not all-zeros. -/
theorem frameMask_empty_all_ones (L : Tensor4) (threshold : ℚ) (H W : ℕ)
    (h : L.nObj = 0) :
    (∀ y x, frameMask L threshold H W y x = 1)
    ∧ ¬ (∀ y x, frameMask L threshold H W y x = 0) := by
  have hbranch : ∀ y x, frameMask L threshold H W y x = 1 := by
    intro y x
    unfold frameMask
    rw [if_neg (by rw [h]; exact lt_irrefl 0)]
  refine ⟨hbranch, fun hall => ?_⟩
  have h0 := hall 0 0
  rw [hbranch 0 0] at h0
  exact one_ne_zero h0

/-- Witness for frameMask_empty_all_ones at a concrete zero-object tensor. -/
theorem frameMask_empty_all_ones_witness :
    (Tensor4.mk 0 2 2 (fun _ _ _ _ => 0)).nObj = 0
    ∧ ((∀ y x, frameMask (Tensor4.mk 0 2 2 (fun _ _ _ _ => 0)) (1/2) 3 3 y x = 1)
      ∧ ¬ (∀ y x, frameMask (Tensor4.mk 0 2 2 (fun _ _ _ _ => 0)) (1/2) 3 3 y x = 0)) :=
  ⟨rfl, frameMask_empty_all_ones (Tensor4.mk 0 2 2 (fun _ _ _ _ => 0)) (1/2) 3 3 rfl⟩

/-- Lines 173-179: the fixed five-color palette of _process_mask. -/
def colors : List (List ℕ) :=
  [[255, 0, 255], [0, 255, 255], [255, 255, 0], [0, 255, 0], [255, 0, 0]]

/-- colors[i % len(colors)] at channel c (line 190). -/
def colorAt (i c : ℕ) : ℕ := (colors.getD (i % colors.length) []).getD c 0

/-- Lines 184-186: current_mask = (mask[i, 0] > 0) as uint8 times 255,
resized with cv2.resize (an external collaborator, passed as a parameter)
to (frame width, frame height) when its shape differs from the frame's. -/
def currentMask (resize : Mat ℕ → ℕ × ℕ → Mat ℕ) (mask : Tensor4)
    (H W i : ℕ) : Mat ℕ :=
  let raw : Mat ℕ := fun y x => if 0 < mask.val i 0 y x then 255 else 0
  if (mask.h, mask.w) = (H, W) then raw else resize raw (W, H)

/-- Lines 189-191: the BGRA colored mask of object i: palette color with
alpha 128 where current_mask > 0, zero elsewhere.  Channel 3 is alpha. -/
def coloredMask (cur : Mat ℕ) (i : ℕ) : ℕ → ℕ → ℕ → ℕ :=
  fun y x c => if 0 < cur y x then (if c = 3 then 128 else colorAt i c) else 0

/-- Lines 194-195: alpha blending of one colored mask over the accumulated
combined mask: combined = (1 - alpha) * combined + alpha * colored, with
alpha read from the colored mask's channel 3 divided by 255. -/
def blendStep (combined : ℕ → ℕ → ℕ → ℚ) (colored : ℕ → ℕ → ℕ → ℕ) :
    ℕ → ℕ → ℕ → ℚ :=
  fun y x c =>
    (1 - (colored y x 3 : ℚ) / 255) * combined y x c
      + ((colored y x 3 : ℚ) / 255) * (colored y x c : ℚ)

/-- Lines 181-195: the loop of _process_mask, folding the blend step over
the objects in index order, starting from the all-zero BGRA accumulator. -/
def combinedColoredMask (resize : Mat ℕ → ℕ × ℕ → Mat ℕ) (mask : Tensor4)
    (H W : ℕ) : ℕ → ℕ → ℕ → ℚ :=
  (List.range mask.nObj).foldl
    (fun combined i =>
      blendStep combined (coloredMask (currentMask resize mask H W i) i))
    (fun _ _ _ => 0)

/-- numpy .astype("uint8") on a nonnegative float: truncation, reduced into
the uint8 range. -/
def toUint8 (q : ℚ) : ℕ := (pyInt q).toNat % 256

/-- The value returned by _process_mask: either the 2-D all-zero matrix of
the empty-mask early return (line 171) or a 3-channel uint8 image. -/
inductive MaskImage
  | twoD (H W : ℕ) (px : Mat ℕ)
  | threeD (H W : ℕ) (px : ℕ → ℕ → ℕ → ℕ)

/-- Lines 168-199: _process_mask.  Empty masks return np.zeros((H, W));
otherwise the combined BGRA accumulator is truncated to uint8 and its first
three channels returned as an (H, W, 3) image. -/
def processMask (resize : Mat ℕ → ℕ × ℕ → Mat ℕ) (mask : Tensor4)
    (H W : ℕ) : MaskImage :=
  if mask.nObj = 0 then MaskImage.twoD H W (fun _ _ => 0)
  else MaskImage.threeD H W
    (fun y x c => toUint8 (combinedColoredMask resize mask H W y x c))

/-- Stated from the claim's words, for comparison with _process_mask: at
each pixel, objects are accumulated in index order; object i contributes
the palette color colors[i mod 5] at alpha 128 wherever it covers the
pixel, through combined = (1 - alpha) * combined + alpha * colored. -/
def blendAtPixelClaim (mask : Tensor4) (y x c : ℕ) : ℚ :=
  (List.range mask.nObj).foldl
    (fun acc i =>
      if 0 < mask.val i 0 y x then
        (1 - 128 / 255) * acc
          + (128 / 255) * (((colors.getD (i % 5) []).getD c 0 : ℕ) : ℚ)
      else acc) 0

/-- Stated from the claim's words: the 3-channel uint8 image of the
per-pixel claim-side blend. -/
def processMaskClaim (mask : Tensor4) (H W : ℕ) : ℕ → ℕ → ℕ → ℕ :=
  fun y x c => toUint8 (blendAtPixelClaim mask y x c)

/-- Pointwise reading of the _process_mask fold: applying the functional
fold at a pixel equals a scalar fold at that pixel. -/
theorem foldl_blend_apply (l : List ℕ) (gs : ℕ → ℕ → ℕ → ℕ → ℕ)
    (f0 : ℕ → ℕ → ℕ → ℚ) (y x c : ℕ) :
    (l.foldl (fun f i => blendStep f (gs i)) f0) y x c
      = l.foldl
          (fun acc i =>
            (1 - (gs i y x 3 : ℚ) / 255) * acc
              + ((gs i y x 3 : ℚ) / 255) * (gs i y x c : ℚ))
          (f0 y x c) := by
  induction l generalizing f0 with
  | nil => rfl
  | cons a l ih =>
      simp only [List.foldl_cons]
      rw [ih]
      rfl

/-- C4: for a mask whose first dimension indexes objects (and whose spatial
shape matches the frame), _process_mask returns a 3-channel uint8 image of
the frame's height and width whose color channels realize the claim's
blend: object i colored with colors[i mod 5] at alpha 128, accumulated in
index order by combined = (1 - alpha) * combined + alpha * colored. -/
theorem processMask_colorize_blend (resize : Mat ℕ → ℕ × ℕ → Mat ℕ)
    (mask : Tensor4) (H W : ℕ) (hn : 0 < mask.nObj)
    (hh : mask.h = H) (hw : mask.w = W) :
    processMask resize mask H W
      = MaskImage.threeD H W
          (fun y x c => toUint8 (combinedColoredMask resize mask H W y x c))
    ∧ (∀ y x c, c < 3 →
        toUint8 (combinedColoredMask resize mask H W y x c)
          = processMaskClaim mask H W y x c)
    ∧ (∀ y x c, processMaskClaim mask H W y x c < 256) := by
  refine ⟨?_, ?_, ?_⟩
  · unfold processMask
    rw [if_neg (Nat.pos_iff_ne_zero.mp hn)]
  · intro y x c hc
    unfold processMaskClaim blendAtPixelClaim combinedColoredMask
    rw [foldl_blend_apply]
    congr 1
    apply List.foldl_ext
    intro acc i hi
    have hdim : ((mask.h, mask.w) : ℕ × ℕ) = (H, W) := by rw [hh, hw]
    unfold currentMask coloredMask
    rw [if_pos hdim]
    by_cases hcov : 0 < mask.val i 0 y x
    · rw [if_pos hcov]
      simp only [if_pos (by norm_num : (0 : ℕ) < 255)]
      have hc3 : ¬ c = 3 := by omega
      rw [if_neg hc3, if_pos hcov]
      have hlen : colors.length = 5 := rfl
      unfold colorAt
      rw [hlen]
      norm_num
    · rw [if_neg hcov]
      simp only [if_neg (lt_irrefl (0 : ℕ)), if_neg hcov]
      push_cast
      ring
  · intro y x c
    unfold processMaskClaim toUint8
    exact Nat.mod_lt _ (by norm_num)

/-- Witness for processMask_colorize_blend at a concrete 1-object 2x2
mask. -/
theorem processMask_colorize_blend_witness :
    (0 < (Tensor4.mk 1 2 2 (fun _ _ y _ => if y = 0 then 1 else 0)).nObj
      ∧ (Tensor4.mk 1 2 2 (fun _ _ y _ => if y = 0 then 1 else 0)).h = 2
      ∧ (Tensor4.mk 1 2 2 (fun _ _ y _ => if y = 0 then 1 else 0)).w = 2)
    ∧ (processMask (fun m _ => m) (Tensor4.mk 1 2 2 (fun _ _ y _ => if y = 0 then 1 else 0)) 2 2
        = MaskImage.threeD 2 2
            (fun y x c => toUint8 (combinedColoredMask (fun m _ => m) (Tensor4.mk 1 2 2 (fun _ _ y _ => if y = 0 then 1 else 0)) 2 2 y x c))
      ∧ (∀ y x c, c < 3 →
          toUint8 (combinedColoredMask (fun m _ => m) (Tensor4.mk 1 2 2 (fun _ _ y _ => if y = 0 then 1 else 0)) 2 2 y x c)
            = processMaskClaim (Tensor4.mk 1 2 2 (fun _ _ y _ => if y = 0 then 1 else 0)) 2 2 y x c)
      ∧ (∀ y x c, processMaskClaim (Tensor4.mk 1 2 2 (fun _ _ y _ => if y = 0 then 1 else 0)) 2 2 y x c < 256)) :=
  ⟨⟨by decide, rfl, rfl⟩,
   processMask_colorize_blend (fun m _ => m)
     (Tensor4.mk 1 2 2 (fun _ _ y _ => if y = 0 then 1 else 0)) 2 2
     (by decide) rfl rfl⟩

/-- A video frame: height, width, and the pixel map (row, column, channel). -/
structure Frame where
  H : ℕ
  W : ℕ
  px : ℕ → ℕ → ℕ → ℚ

/-- The calls segment_images makes on the stored predictor (the model
capability object of the spec): load_first_frame(frame),
add_new_prompt(frame_idx, obj_id, points, labels), track(frame). -/
inductive MEvent
  | loadFirstFrame (frame : Frame)
  | addNewPrompt (frameIdx objId : ℕ) (points : List (List ℤ))
      (labels : List ℤ)
  | track (frame : Frame)

/-- The external segmentation model: its results may depend on the whole
history of calls made so far (it is stateful), so each method takes the
event trace before the call.  add_new_prompt returns (_, _, out_mask_logits)
and track returns (out_obj_ids, out_mask_logits). -/
structure Oracle where
  promptLogits : List MEvent → ℕ → ℕ → List (List ℤ) → List ℤ → Tensor4
  trackResult : List MEvent → Frame → List ℕ × Tensor4

/-- Lines 163-165: the instance fields of Sam2RealtimeSegmentation,
self.predictor and self.if_init. -/
structure PredState where
  predictor : Option Oracle
  ifInit : Bool

/-- Lines 239-246: the prompt-seeding loop over the parsed positive
coordinates.  Each iteration reads point_labels_list[idx] (an out-of-range
index raises, modelled as none), converts the idx-th coordinate to an
integer tuple, and calls add_new_prompt(frame_idx=0, obj_id=idx+1,
points=[point_tuple], labels=[label]).  out_mask_logits holds the last
call's logits (none when the loop body never ran). -/
def promptLoop (o : Oracle) (trace : List MEvent) (coords : List (List ℚ))
    (labels : List ℤ) (idx : ℕ) (last : Option Tensor4) :
    Option (List MEvent × Option Tensor4) :=
  match coords with
  | [] => some ([], last)
  | p :: rest =>
    match labels.get? idx with
    | none => none
    | some lab =>
      let pt := p.map pyInt
      let ev := MEvent.addNewPrompt 0 (idx + 1) [pt] [lab]
      let res := o.promptLogits trace 0 (idx + 1) [pt] [lab]
      match promptLoop o (trace ++ [ev]) rest labels (idx + 1) (some res) with
      | none => none
      | some (evs, lastLogits) => some (ev :: evs, lastLogits)

/-- The add_new_prompt events the seeding loop emits, starting at index
idx: the i-th coordinate becomes obj_id idx+i+1 with the single integer
tuple of that coordinate and the single idx+i-th integer label. -/
def promptEvents (coords : List (List ℚ)) (labels : List ℤ) (idx : ℕ) :
    List MEvent :=
  match coords with
  | [] => []
  | p :: rest =>
      MEvent.addNewPrompt 0 (idx + 1) [p.map pyInt] [labels.getD idx 0]
        :: promptEvents rest labels (idx + 1)

/-- The outcome of the branch part of process_frame: the updated instance
state, the model calls made for this frame, and the out_mask_logits binding
(none when the seeding loop ran zero iterations and left it unbound). -/
structure FrameStep where
  state : PredState
  events : List MEvent
  logits : Option Tensor4

/-- Lines 227-248 of process_frame: when if_init is unset, call
load_first_frame(frame), set if_init, parse coordinates_positive and
point_labels with ast.literal_eval (external, passed as parameters) and
run the prompt-seeding loop; otherwise a single track(frame) call.  The
result is none when the branch raises (missing point label). -/
def processFrameCalls (o : Oracle) (parseC : String → List (List ℚ))
    (parseL : String → List ℚ) (coordsStr labelsStr : String)
    (st : PredState) (trace : List MEvent) (frame : Frame) :
    Option FrameStep :=
  if st.ifInit = false then
    let ev0 := MEvent.loadFirstFrame frame
    let coords := parseC coordsStr
    let labels := (parseL labelsStr).map pyInt
    match promptLoop o (trace ++ [ev0]) coords labels 0 none with
    | none => none
    | some (evs, lastLogits) =>
        some ⟨⟨st.predictor, true⟩, ev0 :: evs, lastLogits⟩
  else
    some ⟨st, [MEvent.track frame], some (o.trackResult trace frame).2⟩

/-- Lines 275-276: the loop over the input frames, threading the instance
state and the model-call trace; returns the final state and the events
emitted by this run (none when a frame raised). -/
def runFrames (o : Oracle) (parseC : String → List (List ℚ))
    (parseL : String → List ℚ) (coordsStr labelsStr : String)
    (st : PredState) (trace : List MEvent) (frames : List Frame) :
    Option (PredState × List MEvent) :=
  match frames with
  | [] => some (st, [])
  | f :: rest =>
    match processFrameCalls o parseC parseL coordsStr labelsStr st trace f with
    | none => none
    | some step =>
      match runFrames o parseC parseL coordsStr labelsStr step.state
          (trace ++ step.events) rest with
      | none => none
      | some (st2, evs) => some (st2, step.events ++ evs)

/-- Lines 215-280 (call structure): segment_images stores the passed model
into self.predictor when that field is still None (lines 224-225), then
processes every frame with the stored predictor. -/
def segmentImagesCalls (model : Oracle) (parseC : String → List (List ℚ))
    (parseL : String → List ℚ) (coordsStr labelsStr : String)
    (st : PredState) (trace : List MEvent) (frames : List Frame) :
    Option (PredState × List MEvent) :=
  let p := st.predictor.getD model
  runFrames p parseC parseL coordsStr labelsStr ⟨some p, st.ifInit⟩ trace frames

/-- The seeding loop succeeds when the labels list covers the coordinates,
and then emits exactly the promptEvents list. -/
theorem promptLoop_eq_promptEvents (o : Oracle) (coords : List (List ℚ))
    (labels : List ℤ) :
    ∀ idx trace last, coords.length + idx ≤ labels.length →
      ∃ lastLogits,
        promptLoop o trace coords labels idx last
          = some (promptEvents coords labels idx, lastLogits) := by
  induction coords with
  | nil =>
      intro idx trace last _
      exact ⟨last, rfl⟩
  | cons p rest ih =>
      intro idx trace last hlen
      have hidx : idx < labels.length := by
        simp only [List.length_cons] at hlen
        omega
      have hget : labels.get? idx = some (labels.getD idx 0) := by
        rw [List.getD_eq_getElem?_getD, List.get?_eq_getElem?]
        rw [List.getElem?_eq_getElem hidx]
        rfl
      obtain ⟨lastLogits, hrec⟩ :=
        ih (idx + 1)
          (trace ++ [MEvent.addNewPrompt 0 (idx + 1) [p.map pyInt]
            [labels.getD idx 0]])
          (some (o.promptLogits trace 0 (idx + 1) [p.map pyInt]
            [labels.getD idx 0]))
          (by simp only [List.length_cons] at hlen; omega)
      refine ⟨lastLogits, ?_⟩
      unfold promptLoop
      rw [hget]
      simp only []
      rw [hrec]
      rfl

/-- Once if_init is set, every frame of the loop emits exactly one track
call and leaves the state untouched. -/
theorem runFrames_tracking (o : Oracle) (parseC : String → List (List ℚ))
    (parseL : String → List ℚ) (coordsStr labelsStr : String)
    (st : PredState) (frames : List Frame) (hinit : st.ifInit = true) :
    ∀ trace,
      runFrames o parseC parseL coordsStr labelsStr st trace frames
        = some (st, frames.map MEvent.track) := by
  induction frames with
  | nil => intro trace; rfl
  | cons f rest ih =>
      intro trace
      have hstep :
          processFrameCalls o parseC parseL coordsStr labelsStr st trace f
            = some ⟨st, [MEvent.track f], some (o.trackResult trace f).2⟩ := by
        unfold processFrameCalls
        rw [if_neg (by rw [hinit]; exact fun h => Bool.noConfusion h)]
      unfold runFrames
      rw [hstep]
      simp only []
      rw [ih (trace ++ [MEvent.track f])]
      rfl

/-- The seeding loop emits one event per coordinate. -/
theorem promptEvents_length (coords : List (List ℚ)) (labels : List ℤ) :
    ∀ idx, (promptEvents coords labels idx).length = coords.length := by
  induction coords with
  | nil => intro idx; rfl
  | cons p rest ih =>
      intro idx
      unfold promptEvents
      simp only [List.length_cons]
      rw [ih (idx + 1)]

/-- The i-th event of the seeding loop started at idx is the
add_new_prompt call for coordinate i with obj_id idx + i + 1. -/
theorem promptEvents_getD (coords : List (List ℚ)) (labels : List ℤ) :
    ∀ idx i d, i < coords.length →
      (promptEvents coords labels idx).getD i d
        = MEvent.addNewPrompt 0 (idx + i + 1) [(coords.getD i []).map pyInt]
            [labels.getD (idx + i) 0] := by
  induction coords with
  | nil =>
      intro idx i d hi
      exact absurd hi (Nat.not_lt_zero i)
  | cons p rest ih =>
      intro idx i d hi
      cases i with
      | zero => rfl
      | succ j =>
          have hj : j < rest.length := by
            simp only [List.length_cons] at hi
            omega
          unfold promptEvents
          rw [List.getD_cons_succ, List.getD_cons_succ, ih (idx + 1) j d hj]
          have h1 : idx + 1 + j = idx + (j + 1) := by omega
          rw [h1]

/-- Reduction of the uninitialized branch of process_frame when the parsed
labels cover the parsed coordinates. -/
theorem processFrameCalls_init (o : Oracle) (parseC : String → List (List ℚ))
    (parseL : String → List ℚ) (coordsStr labelsStr : String)
    (st : PredState) (trace : List MEvent) (f : Frame)
    (hinit : st.ifInit = false)
    (hlen : (parseC coordsStr).length ≤ ((parseL labelsStr).map pyInt).length) :
    ∃ lastLogits,
      processFrameCalls o parseC parseL coordsStr labelsStr st trace f
        = some ⟨⟨st.predictor, true⟩,
            MEvent.loadFirstFrame f
              :: promptEvents (parseC coordsStr) ((parseL labelsStr).map pyInt) 0,
            lastLogits⟩ := by
  obtain ⟨lastLogits, hpl⟩ :=
    promptLoop_eq_promptEvents o (parseC coordsStr)
      ((parseL labelsStr).map pyInt) 0 (trace ++ [MEvent.loadFirstFrame f])
      none (by omega)
  refine ⟨lastLogits, ?_⟩
  unfold processFrameCalls
  rw [if_pos hinit]
  simp only []
  rw [hpl]

/-- C1: over any frame sequence, the first frame processed while if_init is
unset triggers load_first_frame followed by the prompt-seeding calls and
sets if_init, and every later frame of the sequence is handled by exactly
one track call; the initialization branch is never taken again. -/
theorem segmentImages_init_then_track (model : Oracle)
    (parseC : String → List (List ℚ)) (parseL : String → List ℚ)
    (coordsStr labelsStr : String) (st : PredState) (trace : List MEvent)
    (f : Frame) (rest : List Frame) (hinit : st.ifInit = false)
    (hlen : (parseC coordsStr).length ≤ ((parseL labelsStr).map pyInt).length) :
    segmentImagesCalls model parseC parseL coordsStr labelsStr st trace
        (f :: rest)
      = some (⟨some (st.predictor.getD model), true⟩,
          (MEvent.loadFirstFrame f
            :: promptEvents (parseC coordsStr) ((parseL labelsStr).map pyInt) 0)
            ++ rest.map MEvent.track) := by
  obtain ⟨lastLogits, hstep⟩ :=
    processFrameCalls_init (st.predictor.getD model) parseC parseL coordsStr
      labelsStr ⟨some (st.predictor.getD model), st.ifInit⟩ trace f
      (by simpa using hinit) hlen
  unfold segmentImagesCalls
  simp only [runFrames]
  rw [hstep]
  simp only []
  rw [runFrames_tracking (st.predictor.getD model) parseC parseL coordsStr
    labelsStr ⟨some (st.predictor.getD model), true⟩ rest rfl
    (trace ++ (MEvent.loadFirstFrame f
      :: promptEvents (parseC coordsStr) ((parseL labelsStr).map pyInt) 0))]

/-- Concrete witness inputs shared by the state-machine witnesses. -/
def wTensor : Tensor4 := ⟨1, 1, 1, fun _ _ _ _ => 0⟩

/-- A concrete model oracle for witnesses. -/
def wOracle : Oracle := ⟨fun _ _ _ _ _ => wTensor, fun _ _ => ([1], wTensor)⟩

/-- A concrete 1x1 frame for witnesses. -/
def wFrame : Frame := ⟨1, 1, fun _ _ _ => 0⟩

/-- A concrete parse of the coordinates string, one positive point. -/
def wParseC : String → List (List ℚ) := fun _ => [[10, 20]]

/-- A concrete parse of the point-labels string, one label. -/
def wParseL : String → List ℚ := fun _ => [1]

/-- Witness for segmentImages_init_then_track at a concrete oracle, parse
functions and a two-frame sequence. -/
theorem segmentImages_init_then_track_witness :
    ((⟨none, false⟩ : PredState).ifInit = false
      ∧ (wParseC "c").length ≤ ((wParseL "l").map pyInt).length)
    ∧ segmentImagesCalls wOracle wParseC wParseL "c" "l" ⟨none, false⟩ []
          [wFrame, wFrame]
        = some (⟨some ((⟨none, false⟩ : PredState).predictor.getD wOracle), true⟩,
            (MEvent.loadFirstFrame wFrame
              :: promptEvents (wParseC "c") ((wParseL "l").map pyInt) 0)
              ++ [wFrame].map MEvent.track) :=
  ⟨⟨rfl, by decide⟩,
   segmentImages_init_then_track wOracle wParseC wParseL "c" "l"
     ⟨none, false⟩ [] wFrame [wFrame] rfl (by decide)⟩

/-- C2: on the initializing frame the seeding loop makes exactly one
add_new_prompt call per parsed coordinate, the i-th with frame_idx 0,
obj_id i + 1, points the single i-th coordinate as an integer tuple and
labels the single i-th integer label; on frames processed with if_init
already set, no add_new_prompt call is made. -/
theorem processFrame_prompt_seeding (o : Oracle)
    (parseC : String → List (List ℚ)) (parseL : String → List ℚ)
    (coordsStr labelsStr : String) (st : PredState) (trace : List MEvent)
    (f : Frame) (hinit : st.ifInit = false)
    (hlen : (parseC coordsStr).length ≤ ((parseL labelsStr).map pyInt).length) :
    (∃ lastLogits,
      processFrameCalls o parseC parseL coordsStr labelsStr st trace f
        = some ⟨⟨st.predictor, true⟩,
            MEvent.loadFirstFrame f
              :: promptEvents (parseC coordsStr) ((parseL labelsStr).map pyInt) 0,
            lastLogits⟩)
    ∧ (promptEvents (parseC coordsStr) ((parseL labelsStr).map pyInt) 0).length
        = (parseC coordsStr).length
    ∧ (∀ i d, i < (parseC coordsStr).length →
        (promptEvents (parseC coordsStr) ((parseL labelsStr).map pyInt) 0).getD i d
          = MEvent.addNewPrompt 0 (i + 1)
              [((parseC coordsStr).getD i []).map pyInt]
              [((parseL labelsStr).map pyInt).getD i 0])
    ∧ (∀ st2 trace2 step2, st2.ifInit = true →
        processFrameCalls o parseC parseL coordsStr labelsStr st2 trace2 f
            = some step2 →
        ∀ frameIdx objId points labels,
          MEvent.addNewPrompt frameIdx objId points labels ∉ step2.events) := by
  refine ⟨processFrameCalls_init o parseC parseL coordsStr labelsStr st trace
      f hinit hlen,
    promptEvents_length (parseC coordsStr) ((parseL labelsStr).map pyInt) 0,
    ?_, ?_⟩
  · intro i d hi
    have h := promptEvents_getD (parseC coordsStr)
      ((parseL labelsStr).map pyInt) 0 i d hi
    simpa using h
  · intro st2 trace2 step2 hinit2 hcall frameIdx objId points labels hmem
    have hstep2 :
        processFrameCalls o parseC parseL coordsStr labelsStr st2 trace2 f
          = some ⟨st2, [MEvent.track f], some (o.trackResult trace2 f).2⟩ := by
      unfold processFrameCalls
      rw [if_neg (by rw [hinit2]; exact fun h => Bool.noConfusion h)]
    rw [hstep2] at hcall
    have hev : step2.events = [MEvent.track f] := by
      cases Option.some.inj hcall
      rfl
    rw [hev] at hmem
    rcases List.mem_singleton.mp hmem

/-- Witness for processFrame_prompt_seeding at a concrete oracle, parse
functions and frame. -/
theorem processFrame_prompt_seeding_witness :
    ((⟨none, false⟩ : PredState).ifInit = false
      ∧ (wParseC "c").length ≤ ((wParseL "l").map pyInt).length)
    ∧ ((∃ lastLogits,
        processFrameCalls wOracle wParseC wParseL "c" "l" ⟨none, false⟩ [] wFrame
          = some ⟨⟨(⟨none, false⟩ : PredState).predictor, true⟩,
              MEvent.loadFirstFrame wFrame
                :: promptEvents (wParseC "c") ((wParseL "l").map pyInt) 0,
              lastLogits⟩)
      ∧ (promptEvents (wParseC "c") ((wParseL "l").map pyInt) 0).length
          = (wParseC "c").length
      ∧ (∀ i d, i < (wParseC "c").length →
          (promptEvents (wParseC "c") ((wParseL "l").map pyInt) 0).getD i d
            = MEvent.addNewPrompt 0 (i + 1)
                [((wParseC "c").getD i []).map pyInt]
                [((wParseL "l").map pyInt).getD i 0])
      ∧ (∀ st2 trace2 step2, st2.ifInit = true →
          processFrameCalls wOracle wParseC wParseL "c" "l" st2 trace2 wFrame
              = some step2 →
          ∀ frameIdx objId points labels,
            MEvent.addNewPrompt frameIdx objId points labels ∉ step2.events)) :=
  ⟨⟨rfl, by decide⟩,
   processFrame_prompt_seeding wOracle wParseC wParseL "c" "l"
     ⟨none, false⟩ [] wFrame rfl (by decide)⟩

/-- C9: the predictor and if_init fields persist and are never reset: any
call to segment_images made from an initialized state leaves the state
exactly as it was, performs one track call per frame with the stored
predictor, and its result does not depend on the passed model or on the
coordinate and label inputs (they are never parsed or used). -/
theorem segmentImages_state_persists (model : Oracle) (o : Oracle)
    (parseC : String → List (List ℚ)) (parseL : String → List ℚ)
    (coordsStr labelsStr : String) (st : PredState) (trace : List MEvent)
    (frames : List Frame) (hp : st.predictor = some o)
    (hinit : st.ifInit = true) :
    segmentImagesCalls model parseC parseL coordsStr labelsStr st trace frames
        = some (st, frames.map MEvent.track)
    ∧ (∀ (model2 : Oracle) (parseC2 : String → List (List ℚ))
        (parseL2 : String → List ℚ) (coordsStr2 labelsStr2 : String),
        segmentImagesCalls model2 parseC2 parseL2 coordsStr2 labelsStr2 st
            trace frames
          = segmentImagesCalls model parseC parseL coordsStr labelsStr st
              trace frames) := by
  have main : ∀ (model2 : Oracle) (parseC2 : String → List (List ℚ))
      (parseL2 : String → List ℚ) (coordsStr2 labelsStr2 : String),
      segmentImagesCalls model2 parseC2 parseL2 coordsStr2 labelsStr2 st trace
          frames
        = some (st, frames.map MEvent.track) := by
    intro model2 parseC2 parseL2 coordsStr2 labelsStr2
    unfold segmentImagesCalls
    rw [hp]
    have hst : (⟨some ((some o).getD model2), st.ifInit⟩ : PredState) = st := by
      show (⟨some o, st.ifInit⟩ : PredState) = st
      rw [← hp]
    show runFrames ((some o).getD model2) parseC2 parseL2 coordsStr2 labelsStr2
        ⟨some ((some o).getD model2), st.ifInit⟩ trace frames
      = some (st, frames.map MEvent.track)
    rw [hst]
    exact runFrames_tracking ((some o).getD model2) parseC2 parseL2 coordsStr2
      labelsStr2 st frames hinit trace
  exact ⟨main model parseC parseL coordsStr labelsStr,
    fun model2 parseC2 parseL2 coordsStr2 labelsStr2 =>
      (main model2 parseC2 parseL2 coordsStr2 labelsStr2).trans
        (main model parseC parseL coordsStr labelsStr).symm⟩

/-- Witness for segmentImages_state_persists at a concrete initialized
state. -/
theorem segmentImages_state_persists_witness :
    ((⟨some wOracle, true⟩ : PredState).predictor = some wOracle
      ∧ (⟨some wOracle, true⟩ : PredState).ifInit = true)
    ∧ (segmentImagesCalls wOracle wParseC wParseL "c" "l"
          ⟨some wOracle, true⟩ [] [wFrame]
        = some (⟨some wOracle, true⟩, [wFrame].map MEvent.track)
      ∧ (∀ (model2 : Oracle) (parseC2 : String → List (List ℚ))
          (parseL2 : String → List ℚ) (coordsStr2 labelsStr2 : String),
          segmentImagesCalls model2 parseC2 parseL2 coordsStr2 labelsStr2
              ⟨some wOracle, true⟩ [] [wFrame]
            = segmentImagesCalls wOracle wParseC wParseL "c" "l"
                ⟨some wOracle, true⟩ [] [wFrame])) :=
  ⟨⟨rfl, rfl⟩,
   segmentImages_state_persists wOracle wOracle wParseC wParseL "c" "l"
     ⟨some wOracle, true⟩ [] [wFrame] rfl rfl⟩

/-- The externally visible side effects of loadmodel after its input check:
downloading the checkpoint (lines 73-83), composing the Hydra configuration
(lines 85-105), instantiating the model (line 107), loading the checkpoint
into it (lines 109-121), and moving it to the device (lines 123-125). -/
inductive LoadEffect
  | download
  | composeConfig
  | instantiateModel
  | loadCheckpoint
  | moveToDevice
deriving DecidableEq

/-- Lines 55-135: DownloadAndLoadSAM2RealtimeModel.loadmodel as an
effect-trace function: the list of side effects performed and the outcome.
The first statement raises ValueError when precision is not fp32 and the
device is cpu (lines 56-57); then the dtype and device dictionary lookups
(lines 64-65) raise KeyError on unknown keys; only afterwards do the
download, configuration, instantiation, checkpoint-load and device-move
effects happen. -/
def loadmodel (device precision : String) (modelFileExists : Bool) :
    List LoadEffect × Except String Unit :=
  if precision ≠ "fp32" ∧ device = "cpu" then
    ([], Except.error "ValueError: fp16 and bf16 are not supported on cpu")
  else if ¬ (precision = "bf16" ∨ precision = "fp16" ∨ precision = "fp32") then
    ([], Except.error "KeyError")
  else if ¬ (device = "cuda" ∨ device = "cpu" ∨ device = "mps") then
    ([], Except.error "KeyError")
  else
    ((if modelFileExists then [] else [LoadEffect.download])
      ++ [LoadEffect.composeConfig, LoadEffect.instantiateModel,
          LoadEffect.loadCheckpoint, LoadEffect.moveToDevice],
     Except.ok ())

/-- C8: loadmodel raises ValueError whenever the device is cpu and the
precision is not fp32, and it does so before performing any side effect:
the effect trace of such a call is empty. -/
theorem loadmodel_cpu_precision_error (device precision : String)
    (modelFileExists : Bool) (hd : device = "cpu")
    (hp : precision ≠ "fp32") :
    loadmodel device precision modelFileExists
      = ([], Except.error
          "ValueError: fp16 and bf16 are not supported on cpu") := by
  unfold loadmodel
  rw [if_pos ⟨hp, hd⟩]

/-- Witness for loadmodel_cpu_precision_error at cpu / fp16. -/
theorem loadmodel_cpu_precision_error_witness :
    ("cpu" = "cpu" ∧ "fp16" ≠ "fp32")
    ∧ loadmodel "cpu" "fp16" true
        = ([], Except.error
            "ValueError: fp16 and bf16 are not supported on cpu") :=
  ⟨⟨rfl, by decide⟩,
   loadmodel_cpu_precision_error "cpu" "fp16" true rfl (by decide)⟩

/-- numpy / torch shape broadcasting over reversed (trailing-first) shape
lists: dimensions must be equal or one of them 1. -/
def bcRev : List ℕ → List ℕ → Option (List ℕ)
  | [], bs => some bs
  | a :: as, [] => some (a :: as)
  | a :: as, b :: bs =>
    match bcRev as bs with
    | none => none
    | some rest => if a = b ∨ a = 1 ∨ b = 1 then some (max a b :: rest) else none

/-- numpy / torch shape broadcasting: the shape of an elementwise binary
operation on the two shapes, none when they are not broadcastable. -/
def broadcastShapes (s t : List ℕ) : Option (List ℕ) :=
  (bcRev s.reverse t.reverse).map List.reverse

/-- Line 271: torch.add(frame * 0.1, mask * 0.9).  The frame has shape
(H, W, 3) and the per-frame binary mask built on lines 250-258 has shape
(H, W); this is the broadcast shape of that addition. -/
def constructedMaskShape (H W : ℕ) : Option (List ℕ) :=
  broadcastShapes [H, W, 3] [H, W]

/-- C6 (supporting evaluation): the mask-compositing addition of line 271
is not broadcastable for ordinary frame sizes — at a 2x2 frame and at a
512x512 frame the shapes (H, W, 3) and (H, W) have no common broadcast, so
segment_images raises instead of returning the stacked tensors. -/
theorem constructedMask_broadcast_fails :
    constructedMaskShape 2 2 = none ∧ constructedMaskShape 512 512 = none := by
  constructor
  · rfl
  · rfl

/-- One cv2.circle call of the point-overlay loop: the center argument and
the radius. -/
structure CircleCall where
  center : List Char
  radius : ℕ
deriving DecidableEq

/-- Lines 262-265: when show_point is set, the code iterates
coordinates_positive — the raw STRING input, not the parsed coordinate
list — so each loop iteration draws cv2.circle at tuple(point) where point
is a single character of the string, with radius 5. -/
def circleCalls (showPoint : Bool) (coordinatesPositive : String) :
    List CircleCall :=
  if showPoint then coordinatesPositive.data.map (fun c => ⟨[c], 5⟩) else []

/-- C5 (supporting evaluation): with show_point true and the coordinate
string for the single point (10, 20), the overlay loop makes ten cv2.circle
calls, one per character of the string, each with a one-character center —
no call is centered at the coordinate pair. -/
theorem circleCalls_iterate_string :
    circleCalls true "[[10, 20]]"
        = [⟨['['], 5⟩, ⟨['['], 5⟩, ⟨['1'], 5⟩, ⟨['0'], 5⟩, ⟨[','], 5⟩,
           ⟨[' '], 5⟩, ⟨['2'], 5⟩, ⟨['0'], 5⟩, ⟨[']'], 5⟩, ⟨[']'], 5⟩]
    ∧ ∀ call ∈ circleCalls true "[[10, 20]]", call.center.length = 1 := by
  constructor
  · rfl
  · decide

end SAM2Realtime
